import Mathlib

/-!
# Verification of the ScholarDock PDF acquisition pipeline

A shallow embedding of `backend/services/pdf_downloader.py` (class
`PDFDownloader`) and proofs about it.  Python strings are modelled as Lean
`String`s; the handful of Python `str` methods the source uses
(`lower`, `split`, `strip`, `rstrip`, `startswith`, `endswith`, `in`) are
embedded as executable functions over the character list (`py*` helpers
below).  External collaborators (the aiohttp network client, BeautifulSoup,
the `re`-based script-redirect extraction, playwright, `urllib.parse.urljoin`,
the home directory) are modelled as an environment record of oracles; the
downloader's own control flow and state updates are translated directly from
the source.  The mutable state of one pipeline run — the filesystem, the
negative cache `failed_urls`, and a log of issued network requests — is an
explicit `World` record threaded through every operation.
-/

namespace ScholarDock

/-! ## Python string primitives, embedded over `List Char` -/

/-- Boolean list-prefix test (Python `startswith` on character lists). -/
def isPrefixL : List Char → List Char → Bool
  | [], _ => true
  | _ :: _, [] => false
  | a :: as, b :: bs => a == b && isPrefixL as bs

/-- Boolean list-infix test (Python `in` for substrings, on character lists). -/
def isInfixL (sub : List Char) : List Char → Bool
  | [] => sub.isEmpty
  | b :: bs => isPrefixL sub (b :: bs) || isInfixL sub bs

/-- Python `sub in s` for strings. -/
def pyContainsStr (s sub : String) : Bool := isInfixL sub.toList s.toList

/-- Python `s.startswith(pre)`. -/
def pyStartsWith (s pre : String) : Bool := isPrefixL pre.toList s.toList

/-- Python `s.endswith(suf)`. -/
def pyEndsWith (s suf : String) : Bool := isPrefixL suf.toList.reverse s.toList.reverse

/-- Python `str.lower` on one character (ASCII fragment, which is all the
source's patterns need). -/
def pyToLowerChar (c : Char) : Char :=
  if 65 ≤ c.toNat ∧ c.toNat ≤ 90 then Char.ofNat (c.toNat + 32) else c

/-- Python `s.lower()`. -/
def pyLower (s : String) : String := String.mk (s.toList.map pyToLowerChar)

/-- Uppercase ASCII letter test. -/
def pyIsUpper (c : Char) : Bool := 65 ≤ c.toNat && c.toNat ≤ 90

/-- Core of Python `s.split(sep)` over character lists.  The `fuel` argument
only makes the recursion structural; with `fuel ≥ length + 1` it is never
exhausted. -/
def pySplitCore (sep : List Char) : Nat → List Char → List (List Char)
  | 0, l => [l]
  | fuel + 1, l =>
    if sep ≠ [] && isPrefixL sep l then
      [] :: pySplitCore sep fuel (l.drop sep.length)
    else
      match l with
      | [] => [[]]
      | c :: rest =>
        match pySplitCore sep fuel rest with
        | [] => [[c]]
        | p :: ps => (c :: p) :: ps

/-- Python `s.split(sep)` (for a non-empty separator, which is the only way
the source calls it). -/
def pySplit (s sep : String) : List String :=
  (pySplitCore sep.toList (s.toList.length + 1) s.toList).map String.mk

/-- Python `s.strip()` over a character list. -/
def pyStripList (l : List Char) : List Char :=
  ((l.dropWhile Char.isWhitespace).reverse.dropWhile Char.isWhitespace).reverse

/-- Python `s.strip()`. -/
def pyStrip (s : String) : String := String.mk (pyStripList s.toList)

/-- Python `s.rstrip('/')`. -/
def pyRstripSlash (s : String) : String :=
  String.mk ((s.toList.reverse.dropWhile (fun c => c == '/')).reverse)

/-- Python `sep.join(parts)`. -/
def pyJoin (sep : String) (parts : List String) : String :=
  String.intercalate sep parts

/-! ## Data model -/

/-- The mutable world one `PDFDownloader` run acts on: the set of files on
disk (as the list of written paths), the negative cache `self.failed_urls`,
and a log of the URLs for which a network request (`session.get`) was
issued. -/
structure World where
  fs : List String
  failed : List String
  fetches : List String
deriving DecidableEq, Repr

/-- An HTTP response as the source consumes it: status code, the raw
`content-type` header, and the body (bytes and decoded text are both
modelled as the same string; the only byte-level check in the source is the
`%PDF` prefix). -/
structure Response where
  status : Nat
  contentType : String
  body : String
deriving DecidableEq, Repr

/-- Result of one `session.get`: a response, or a raised exception
(timeouts, connection errors), which the source catches. -/
inductive FetchResult where
  | ok (r : Response)
  | exn
deriving DecidableEq, Repr

/-- The parts of a BeautifulSoup parse that
`_handle_auto_download_page` queries: `meta` tags as
(`http-equiv` attribute, `content` attribute) pairs, `script.string`
contents, text nodes paired with the `href`s of their parent's anchors, and
the `href`s of all anchors, in document order. -/
structure ParsedDoc where
  metas : List (Option String × Option String)
  scripts : List (Option String)
  textNodes : List (String × List String)
  links : List String

/-- A batch-input article dict.  Each field is `Option` because Python dict
subscripting (`article['title']`, `article['url']`) raises `KeyError` when
the key is absent — the "unexpected fault" path of the batch orchestrator. -/
structure Article where
  title : Option String
  url : Option String
  pdf_url : Option String
deriving DecidableEq, Repr

/-- The dict returned by `download_multiple_pdfs`. -/
structure BatchResults where
  successful : List (String × String)
  failed : List (String × String)
  total : Nat
deriving DecidableEq, Repr

/-- External collaborators, as oracles: the HTTP transport, the HTML
parser, the `re.search`-based script-redirect extraction of lines 156–168
(applied to the lowercased script text, returning the first matched group),
the playwright browser fallback, and `Path.home()`. -/
structure Env where
  net : String → FetchResult
  parse : String → ParsedDoc
  scriptExtract : String → Option String
  browser : String → String → World → Bool × World
  home : String

/-! ## Pure helpers of `PDFDownloader` -/

/-- The characters `_sanitize_filename` replaces (`re.sub(r'[<>:"/\\|?*]', '_', ...)`). -/
def illegal_chars : List Char := ['<', '>', ':', '"', '/', '\\', '|', '?', '*']

/-- `PDFDownloader._sanitize_filename` (lines 38–48): replace illegal
characters with `_`, truncate to 200 characters, then append `.pdf` unless
the lowercased name already ends in it. -/
def sanitize_filename (filename : String) : String :=
  let f1 := String.mk (filename.toList.map (fun c => if c ∈ illegal_chars then '_' else c))
  let f2 := if f1.length > 200 then String.mk (f1.toList.take 200) else f1
  if pyEndsWith (pyLower f2) ".pdf" then f2 else f2 ++ ".pdf"

/-- `PDFDownloader._is_valid_pdf_url` (lines 50–59). -/
def is_valid_pdf_url (url : String) : Bool :=
  if url = "" then false
  else
    let url_lower := pyLower url
    [".pdf", "pdf", "download", "attachment"].any (fun ind => pyContainsStr url_lower ind)

/-- The generic candidate suffixes of `_extract_pdf_urls` (lines 89–96). -/
def pdf_suffixes : List String :=
  ["/pdf", ".pdf", "/download", "/attachment", "?format=pdf", "&format=pdf"]

/-- `PDFDownloader._extract_pdf_urls` (lines 61–103). -/
def extract_pdf_urls (article_url : String) : List String :=
  if pyContainsStr article_url "research-collection.ethz.ch"
      && pyContainsStr article_url "bitstream/handle" then
    let l1 := [article_url]
    if pyContainsStr article_url "?sequence=" then
      let direct_pdf_url := (pySplit article_url "?sequence=").headD ""
      if direct_pdf_url ≠ article_url then l1 ++ [direct_pdf_url] else l1
    else l1
  else
    let l0 := if is_valid_pdf_url article_url then [article_url] else []
    let base_url := pyRstripSlash article_url
    l0 ++ pdf_suffixes.filterMap (fun suffix =>
      if base_url ++ suffix ≠ article_url then some (base_url ++ suffix) else none)

/-- `PDFDownloader._should_use_browser` (lines 266–274). -/
def should_use_browser (url : String) : Bool :=
  ["research-collection.ethz.ch", "ieeexplore.ieee.org", "link.springer.com",
    "dl.acm.org"].any (fun site => pyContainsStr url site)

/-! ## The interstitial resolver -/

/-- The scheme-and-host part of a URL (`http://host`), used to resolve
root-relative references. -/
def urlSitePart (base : String) : String :=
  pyJoin "/" ((pySplit base "/").take 3)

/-- Everything up to and including the last `/` of a URL. -/
def urlDirPart (base : String) : String :=
  pyJoin "/" ((pySplit base "/").dropLast) ++ "/"

/-- Models `urllib.parse.urljoin` (an external collaborator, spec §6) for
the URL shapes the repository exercises: an empty reference keeps the base;
a reference carrying a scheme is absolute; a root-relative reference is
attached to the base's scheme and host; any other reference replaces the
last path segment of the base.  Dot-segment normalization is not needed by
any call site modelled here. -/
def urljoin (base rel : String) : String :=
  if rel = "" then base
  else if pyContainsStr rel "://" then rel
  else if pyStartsWith rel "/" then urlSitePart base ++ rel
  else urlDirPart base ++ rel

/-- The trigger phrases of lines 171–174. -/
def download_indicators : List String :=
  ["now downloading", "download will start", "downloading",
    "click here if download", "if your download does not start"]

/-- The redirect target extracted by the meta-refresh rule (line 142):
`content_attr.lower().split('url=')[1].strip()`.  (`getD … ""` stands for
the Python subscript, which cannot be out of range on the guarded path.) -/
def metaTarget (content_attr : String) : String :=
  pyStrip ((pySplit (pyLower content_attr) "url=").getD 1 "")

/-- Resolution of a candidate redirect against the page's base URL
(the repeated `if … startswith('http') … else urljoin(base_url, …)`
pattern of lines 143–146, 165–168, 186–189, 196–199). -/
def resolveRel (base_url redirect : String) : String :=
  if pyStartsWith redirect "http" then redirect else urljoin base_url redirect

/-- `PDFDownloader._handle_auto_download_page` (lines 105–205).  Pure text
analysis over the already-parsed body, except for the ETH-specific branch,
which reads the negative cache and — for a `/download`-suffixed ETH URL —
appends to it (line 124).  The resolver issues no network request: it never
consults `env.net` and leaves the fetch log untouched. -/
def handle_auto_download_page (env : Env) (url content : String) (st : World) :
    Option String × World :=
  let soup := env.parse content
  let base_url := pyJoin "/" ((pySplit url "/").dropLast) ++ "/"
  -- ETH Zurich special case (lines 113–134)
  if pyContainsStr url "research-collection.ethz.ch"
      && pyContainsStr url "bitstream/handle" then
    if pyContainsStr url "?sequence="
        && decide ((pySplit url "?sequence=").headD "" ∉ st.failed) then
      (some ((pySplit url "?sequence=").headD ""), st)
    else if pyEndsWith url "/download" then
      (none, { st with failed := st.failed ++ [url] })
    else
      let download_url := pyRstripSlash url ++ "/download"
      if download_url ∉ st.failed then (some download_url, st) else (none, st)
  else
    -- meta refresh (lines 137–146)
    let metaResult : Option String :=
      match soup.metas.find? (fun m =>
          match m.1 with
          | some he => pyContainsStr (pyLower he) "refresh"
          | none => false) with
      | some m =>
        let content_attr := m.2.getD ""
        if pyContainsStr (pyLower content_attr) "url=" then
          some (resolveRel base_url (metaTarget content_attr))
        else none
      | none => none
    match metaResult with
    | some r => (some r, st)
    | none =>
      -- JavaScript redirects (lines 148–168); the regex extraction over the
      -- lowercased script text is the `env.scriptExtract` oracle
      match soup.scripts.findSome? (fun sc? =>
          sc?.bind fun sc =>
            let script_content := pyLower sc
            if pyContainsStr script_content "window.location"
                || pyContainsStr script_content "location.href" then
              (env.scriptExtract script_content).map (resolveRel base_url)
            else none) with
      | some r => (some r, st)
      | none =>
        -- "Now downloading" indicator links (lines 170–189)
        match download_indicators.findSome? (fun indicator =>
            soup.textNodes.findSome? (fun node =>
              if pyContainsStr (pyLower node.1) indicator then
                node.2.findSome? (fun href =>
                  if href ≠ "" && is_valid_pdf_url href then
                    some (resolveRel base_url href)
                  else none)
              else none)) with
        | some r => (some r, st)
        | none =>
          -- any `.pdf` link as a fallback (lines 191–199)
          match soup.links.findSome? (fun href =>
              if href ≠ "" && pyEndsWith (pyLower href) ".pdf" then
                some (resolveRel base_url href)
              else none) with
          | some r => (some r, st)
          | none => (none, st)

/-! ## The retrieval state machine -/

/-- Body of `PDFDownloader._download_single_pdf` (lines 207–264), with a
structural `fuel` argument standing in for the well-founded recursion on
`4 - recursion_depth`; the entry point `download_single_pdf` supplies
`fuel = 5 - depth`, which makes the fuel inexhaustible (a recursive call
happens only after the `recursion_depth > 3` guard has passed, so the depth
never exceeds 4). -/
def download_single_go (env : Env) : Nat → String → String → Nat → World → Bool × World
  | 0, _, _, _, st => (false, st)
  | fuel + 1, url, filepath, recursion_depth, st =>
    -- 防止无限递归 (line 210)
    if recursion_depth > 3 then (false, st)
    -- 检查是否为已知失败的URL (line 215)
    else if url ∈ st.failed then (false, st)
    else
      let st := { st with fetches := st.fetches ++ [url] }
      match env.net url with
      | .exn => (false, st)
      | .ok response =>
        if response.status = 200 then
          let content_type := pyLower response.contentType
          if pyContainsStr content_type "application/pdf"
              || pyContainsStr content_type "application/octet-stream" then
            if pyStartsWith response.body "%PDF" then
              (true, { st with fs := st.fs ++ [filepath] })
            else (false, st)
          else if pyContainsStr content_type "text/html" then
            match handle_auto_download_page env url response.body st with
            | (some actual_pdf_url, st') =>
              if actual_pdf_url ≠ url then
                download_single_go env fuel actual_pdf_url filepath (recursion_depth + 1) st'
              else (false, st')
            | (none, st') => (false, st')
          else (false, st)
        else (false, st)

/-- `PDFDownloader._download_single_pdf` (lines 207–264). -/
def download_single_pdf (env : Env) (url filepath : String) (recursion_depth : Nat)
    (st : World) : Bool × World :=
  download_single_go env (5 - recursion_depth) url filepath recursion_depth st

/-- The candidate loop of `download_article_pdf` (lines 391–393): try each
candidate in order, stopping at the first success. -/
def try_pdf_urls (env : Env) (filepath : String) : List String → World → Bool × World
  | [], st => (false, st)
  | pdf_url :: rest, st =>
    match download_single_pdf env pdf_url filepath 0 st with
    | (true, st') => (true, st')
    | (false, st') => try_pdf_urls env filepath rest st'

/-- The destination path `download_article_pdf` computes (lines 372–380):
the download directory (defaulting to `~/Downloads/ScholarDock_PDFs`)
joined with the sanitized title. -/
def article_filepath (env : Env) (article_title : String) (download_path : Option String) :
    String :=
  (match download_path with
    | some p => p
    | none => env.home ++ "/Downloads/ScholarDock_PDFs") ++ "/" ++ sanitize_filename article_title

/-- `PDFDownloader.download_article_pdf` (lines 368–402). -/
def download_article_pdf (env : Env) (article_title article_url : String)
    (download_path : Option String) (st : World) : Option String × World :=
  let filepath := article_filepath env article_title download_path
  -- 如果文件已存在，跳过下载 (line 383)
  if filepath ∈ st.fs then (some filepath, st)
  else
    match try_pdf_urls env filepath (extract_pdf_urls article_url) st with
    | (true, st') => (some filepath, st')
    | (false, st') =>
      if should_use_browser article_url then
        match env.browser article_url filepath st' with
        | (true, st'') => (some filepath, st'')
        | (false, st'') => (none, st'')
      else (none, st')

/-! ## The batch orchestrator -/

/-- The per-article tasks of `download_multiple_pdfs` (lines 417–439),
sequentialized.  (The real tasks interleave under an `asyncio.Semaphore`;
completion order is scheduler-dependent, so the aggregate facts proved
below are stated order-insensitively.)  An article whose `title` or `url`
key is missing raises `KeyError` inside its task; `asyncio.gather(...,
return_exceptions=True)` swallows the exception, so such an article is
appended to neither list.  Note `article.get('pdf_url', article['url'])`
evaluates `article['url']` even when `pdf_url` is present, so a missing
`url` key always faults. -/
def run_batch (env : Env) (download_path : Option String) :
    List Article → BatchResults → World → BatchResults × World
  | [], results, st => (results, st)
  | article :: rest, results, st =>
    match article.title, article.url with
    | some title, some url =>
      let target := article.pdf_url.getD url
      match download_article_pdf env title target download_path st with
      | (some filepath, st') =>
        run_batch env download_path rest
          { results with successful := results.successful ++ [(title, filepath)] } st'
      | (none, st') =>
        run_batch env download_path rest
          { results with failed := results.failed ++ [(title, target)] } st'
    | _, _ => run_batch env download_path rest results st

/-- `PDFDownloader.download_multiple_pdfs` (lines 404–441).  The
`max_concurrent` argument sizes the semaphore; it bounds in-flight tasks
but does not affect which outcomes are aggregated. -/
def download_multiple_pdfs (env : Env) (articles : List Article)
    (download_path : Option String) (max_concurrent : Nat) (st : World) :
    BatchResults × World :=
  let _ := max_concurrent
  run_batch env download_path articles
    { successful := [], failed := [], total := articles.length } st


/-! ## Derived conditions and concrete test environments -/

/-- The condition under which `_handle_auto_download_page` appends its page
URL to the negative cache (line 124): an ETH bitstream URL, no usable
`?sequence=`-stripped variant, ending in `/download`. -/
def ethCacheAdd (url : String) (st : World) : Bool :=
  pyContainsStr url "research-collection.ethz.ch" && pyContainsStr url "bitstream/handle"
    && !(pyContainsStr url "?sequence="
          && decide ((pySplit url "?sequence=").headD "" ∉ st.failed))
    && pyEndsWith url "/download"

/-- An empty parse result: a body with no meta tags, scripts, or links. -/
def trivialDoc : ParsedDoc := ⟨[], [], [], []⟩

/-- An environment in which every network request raises and every page is
empty: the downloader finds nothing. -/
def failEnv : Env :=
  ⟨fun _ => .exn, fun _ => trivialDoc, fun _ => none, fun _ _ st => (false, st), "/home/user"⟩

def urlA : String := "http://site-a.example/page"

def urlB : String := "http://site-b.example/page"

/-- A parse result carrying a single meta-refresh tag pointing at `target`. -/
def docTo (target : String) : ParsedDoc :=
  ⟨[(some "Refresh", some ("0;URL=" ++ target))], [], [], []⟩

/-- The cyclic interstitial network: `urlA` serves an HTML page whose
meta refresh points at `urlB`, and vice versa. -/
def cycEnv : Env :=
  ⟨fun u => if u = urlA then .ok ⟨200, "text/html", "pageA"⟩
    else if u = urlB then .ok ⟨200, "text/html", "pageB"⟩ else .exn,
   fun b => if b = "pageA" then docTo urlB else if b = "pageB" then docTo urlA else trivialDoc,
   fun _ => none, fun _ _ st => (false, st), "/home/user"⟩

/-- An ETH bitstream URL ending in `/download`, with no `?sequence=`. -/
def ethDownloadUrl : String :=
  "https://research-collection.ethz.ch/bitstream/handle/20.500/thing/download"

/-- A network whose only page carries a meta refresh to the relative,
mixed-case reference `c.PDF`. -/
def env10 : Env :=
  ⟨fun _ => .exn, fun b => if b = "body10" then docTo "c.PDF" else trivialDoc,
   fun _ => none, fun _ _ st => (false, st), "/home/user"⟩

/-- A batch of two articles; the first is missing its `title` key. -/
def cexArticles : List Article :=
  [⟨none, some "u", none⟩, ⟨some "t", some "http://u2.example/x", none⟩]

/-- A server answering one URL with a spoofed PDF content-type whose body
is not a PDF. -/
def env2 : Env :=
  ⟨fun u => if u = "http://fake.example/doc"
      then .ok ⟨200, "Application/PDF", "<html>nope"⟩ else .exn,
   fun _ => trivialDoc, fun _ => none, fun _ _ st => (false, st), "/home/user"⟩

def cachedUrl : String := "http://bad.example/x"

/-- A server whose only page carries a meta refresh with an absolute,
upper-cased target. -/
def envW : Env :=
  ⟨fun _ => .exn,
   fun _ => ⟨[(some "Refresh", some "3;URL=HTTP://X.COM/F.PDF")], [], [], []⟩,
   fun _ => none, fun _ _ st => (false, st), "/home/user"⟩

/-- A well-formed single-article batch. -/
def art1 : Article := ⟨some "t1", some "http://u.example/a", none⟩

/-! ## Helper lemmas on the string primitives -/

theorem pyIsUpper_pyToLowerChar (c : Char) : pyIsUpper (pyToLowerChar c) = false := by
  unfold pyToLowerChar pyIsUpper
  split
  · next h =>
    obtain ⟨h1, h2⟩ := h
    generalize hx : c.toNat = n at h1 h2 ⊢
    interval_cases n <;> decide
  · next h =>
    simp only [Bool.and_eq_false_iff, decide_eq_false_iff_not]
    omega

theorem isPrefixL_append_self (l t : List Char) : isPrefixL l (l ++ t) = true := by
  induction l with
  | nil => rfl
  | cons a as ih => simp [isPrefixL, ih]

theorem mem_pySplitCore (sep : List Char) (fuel : Nat) :
    ∀ (l p : List Char), p ∈ pySplitCore sep fuel l → ∀ c ∈ p, c ∈ l := by
  induction fuel with
  | zero =>
    intro l p hp c hc
    simp [pySplitCore] at hp
    subst hp; exact hc
  | succ fuel ih =>
    intro l p hp c hc
    unfold pySplitCore at hp
    split at hp
    · rcases List.mem_cons.mp hp with h | h
      · subst h; simp at hc
      · exact List.drop_subset _ _ (ih _ _ h c hc)
    · cases l with
      | nil =>
        simp at hp
        subst hp
        simp at hc
      | cons x rest =>
        have hp' : p ∈ (match pySplitCore sep fuel rest with
            | [] => [[x]] | q :: qs => (x :: q) :: qs) := hp
        cases hsp : pySplitCore sep fuel rest with
        | nil =>
          rw [hsp] at hp'
          simp at hp'
          subst hp'
          simp at hc
          subst hc
          exact List.mem_cons_self _ _
        | cons q qs =>
          rw [hsp] at hp'
          rcases List.mem_cons.mp hp' with h | h
          · subst h
            rcases List.mem_cons.mp hc with h1 | h1
            · subst h1; exact List.mem_cons_self _ _
            · refine List.mem_cons_of_mem x (ih rest q ?_ c h1)
              rw [hsp]; exact List.mem_cons_self q qs
          · refine List.mem_cons_of_mem x (ih rest p ?_ c hc)
            rw [hsp]; exact List.mem_cons_of_mem q h

theorem mem_pyStripList (l : List Char) (c : Char) (h : c ∈ pyStripList l) : c ∈ l := by
  unfold pyStripList at h
  rw [List.mem_reverse] at h
  have h2 := (List.dropWhile_sublist _).subset h
  rw [List.mem_reverse] at h2
  exact (List.dropWhile_sublist _).subset h2

theorem getD_mem_or {α : Type} (l : List α) (i : Nat) (d : α) :
    l.getD i d ∈ l ∨ l.getD i d = d := by
  rw [List.getD_eq_getElem?_getD]
  cases h : l[i]? with
  | none => right; rfl
  | some a => left; simpa using List.getElem?_mem h

/-- Every character of the meta-refresh redirect target is drawn from the
lowercased `content` attribute, hence is never an uppercase ASCII letter. -/
theorem metaTarget_no_upper (content_attr : String) :
    ∀ c ∈ (metaTarget content_attr).toList, pyIsUpper c = false := by
  intro c hc
  unfold metaTarget at hc
  have hc' : c ∈ pyStripList ((pySplit (pyLower content_attr) "url=").getD 1 "").toList := hc
  have h1 := mem_pyStripList _ _ hc'
  rcases getD_mem_or (pySplit (pyLower content_attr) "url=") 1 "" with hmem | hdef
  · unfold pySplit at hmem h1
    rcases List.mem_map.mp hmem with ⟨p, hp, hps⟩
    rw [← hps] at h1
    have h2 : c ∈ (pyLower content_attr).toList := mem_pySplitCore _ _ _ _ hp c h1
    unfold pyLower at h2
    rcases List.mem_map.mp h2 with ⟨a, _, rfl⟩
    exact pyIsUpper_pyToLowerChar a
  · rw [hdef] at h1
    simp at h1

theorem append_ne_self (s t : String) (h : t.length ≠ 0) : s ++ t ≠ s := by
  intro heq
  have := congrArg String.length heq
  rw [String.length_append] at this
  omega

/-! ## Claim theorems -/

theorem run_batch_spec (env : Env) (dp : Option String) :
    ∀ (l : List Article) (res : BatchResults) (st : World),
      (∀ a ∈ l, a.title.isSome ∧ a.url.isSome) →
      (run_batch env dp l res st).1.total = res.total ∧
      (run_batch env dp l res st).1.successful.length
          + (run_batch env dp l res st).1.failed.length
        = res.successful.length + res.failed.length + l.length ∧
      ∀ t : String,
        ((run_batch env dp l res st).1.successful.map Prod.fst
            ++ (run_batch env dp l res st).1.failed.map Prod.fst).count t
          = (res.successful.map Prod.fst ++ res.failed.map Prod.fst).count t
            + (l.filterMap Article.title).count t := by
  intro l
  induction l with
  | nil =>
    intro res st h
    exact ⟨rfl, by simp [run_batch], fun t => by simp [run_batch]⟩
  | cons a rest ih =>
    intro res st h
    obtain ⟨htt, hut⟩ := h a (List.mem_cons_self a rest)
    rcases Option.isSome_iff_exists.mp htt with ⟨tt, hta⟩
    rcases Option.isSome_iff_exists.mp hut with ⟨uu, hua⟩
    have hrest : ∀ x ∈ rest, x.title.isSome ∧ x.url.isSome :=
      fun x hx => h x (List.mem_cons_of_mem a hx)
    unfold run_batch
    rw [hta, hua]
    dsimp only []
    cases hd : download_article_pdf env tt (a.pdf_url.getD uu) dp st with
    | mk fp? st' =>
      cases fp? with
      | some fp =>
        obtain ⟨i1, i2, i3⟩ := ih { res with successful := res.successful ++ [(tt, fp)] } st' hrest
        refine ⟨i1, ?_, ?_⟩
        · simp only [List.length_append, List.length_cons, List.length_nil] at i2 ⊢
          omega
        · intro t
          have i3' := i3 t
          simp only [List.map_append, List.count_append, List.map_cons, List.map_nil,
            List.filterMap_cons, hta, List.count_cons, List.count_nil] at i3' ⊢
          omega
      | none =>
        obtain ⟨i1, i2, i3⟩ := ih { res with failed := res.failed ++ [(tt, a.pdf_url.getD uu)] } st' hrest
        refine ⟨i1, ?_, ?_⟩
        · simp only [List.length_append, List.length_cons, List.length_nil] at i2 ⊢
          omega
        · intro t
          have i3' := i3 t
          simp only [List.map_append, List.count_append, List.map_cons, List.map_nil,
            List.filterMap_cons, hta, List.count_cons, List.count_nil] at i3' ⊢
          omega

/-- C1 (counterexample): with a batch in which one article dict is missing
its `title` key, the per-article task raises `KeyError`;
`asyncio.gather(..., return_exceptions=True)` swallows the fault, the
article lands in neither list, and
`len(successful) + len(failed) = 1 ≠ 2 = total`. -/
theorem batch_fault_drops_outcome_cex :
    ((download_multiple_pdfs failEnv cexArticles none 3 ⟨[], [], []⟩).1.successful.length
      + (download_multiple_pdfs failEnv cexArticles none 3 ⟨[], [], []⟩).1.failed.length
      ≠ (download_multiple_pdfs failEnv cexArticles none 3 ⟨[], [], []⟩).1.total) := by decide

/-- C1 (amended): for every batch in which no per-article task faults
(every article carries its `title` and `url` keys), the result of
`download_multiple_pdfs` satisfies `len(successful) + len(failed) = total`,
`total` is the number of input articles, and every input article's title
appears exactly once across the two lists (counted with multiplicity);
a fault in one article's processing does not prevent the others from being
counted, but the faulting article itself is appended to neither list. -/
theorem batch_counts_complete (env : Env) (articles : List Article)
    (dp : Option String) (max_concurrent : Nat) (st : World)
    (h : ∀ a ∈ articles, a.title.isSome ∧ a.url.isSome) :
    (download_multiple_pdfs env articles dp max_concurrent st).1.successful.length
        + (download_multiple_pdfs env articles dp max_concurrent st).1.failed.length
      = (download_multiple_pdfs env articles dp max_concurrent st).1.total ∧
    (download_multiple_pdfs env articles dp max_concurrent st).1.total = articles.length ∧
    ∀ t : String,
      ((download_multiple_pdfs env articles dp max_concurrent st).1.successful.map Prod.fst
          ++ (download_multiple_pdfs env articles dp max_concurrent st).1.failed.map
              Prod.fst).count t
        = (articles.filterMap Article.title).count t := by
  obtain ⟨i1, i2, i3⟩ := run_batch_spec env dp articles
    { successful := [], failed := [], total := articles.length } st h
  unfold download_multiple_pdfs
  refine ⟨?_, ?_, ?_⟩
  · simp only [List.length_nil] at i2
    rw [i2, i1]
    simp
  · exact i1
  · intro t
    have := i3 t
    simpa using this

/-- C1 (witness): `batch_counts_complete` applied to a concrete well-formed
single-article batch. -/
theorem batch_counts_complete_witness :
    (∀ a ∈ [art1], a.title.isSome ∧ a.url.isSome) ∧
    ((download_multiple_pdfs failEnv [art1] none 3 ⟨[], [], []⟩).1.successful.map Prod.fst
        ++ (download_multiple_pdfs failEnv [art1] none 3 ⟨[], [], []⟩).1.failed.map
            Prod.fst).count "t1"
      = ([art1].filterMap Article.title).count "t1" :=
  ⟨by decide,
    (batch_counts_complete failEnv [art1] none 3 ⟨[], [], []⟩ (by decide)).2.2 "t1"⟩

/-- C2: for every HTTP response with status 200 whose content-type contains
`application/pdf` or `application/octet-stream` (after lowercasing) but
whose body does not begin with `%PDF`, `_download_single_pdf` returns
failure for that URL and leaves the filesystem untouched — no partial or
corrupt file is written to the destination filepath. -/
theorem pdf_signature_reject (env : Env) (url filepath : String) (depth : Nat) (st : World)
    (r : Response) (hnet : env.net url = .ok r) (hstatus : r.status = 200)
    (hct : (pyContainsStr (pyLower r.contentType) "application/pdf"
        || pyContainsStr (pyLower r.contentType) "application/octet-stream") = true)
    (hsig : pyStartsWith r.body "%PDF" = false) :
    (download_single_pdf env url filepath depth st).1 = false ∧
    (download_single_pdf env url filepath depth st).2.fs = st.fs := by
  unfold download_single_pdf
  cases h5 : 5 - depth with
  | zero => simp [download_single_go]
  | succ fuel =>
    unfold download_single_go
    split
    · exact ⟨rfl, rfl⟩
    · split
      · exact ⟨rfl, rfl⟩
      · rw [hnet]
        dsimp only []
        rw [if_pos hstatus, if_pos hct, if_neg (by simp [hsig])]
        exact ⟨rfl, rfl⟩

/-- C2 (witness): a server spoofing `Application/PDF` on an HTML body is
rejected and nothing is written. -/
theorem pdf_signature_reject_witness :
    pyStartsWith ("<html>nope" : String) "%PDF" = false ∧
    (download_single_pdf env2 "http://fake.example/doc" "/d/f.pdf" 0 ⟨[], [], []⟩).1 = false ∧
    (download_single_pdf env2 "http://fake.example/doc" "/d/f.pdf" 0 ⟨[], [], []⟩).2.fs
      = ([] : List String) :=
  ⟨by decide,
    (pdf_signature_reject env2 "http://fake.example/doc" "/d/f.pdf" 0 ⟨[], [], []⟩
      ⟨200, "Application/PDF", "<html>nope"⟩ (by decide) rfl (by decide) (by decide)).1,
    (pdf_signature_reject env2 "http://fake.example/doc" "/d/f.pdf" 0 ⟨[], [], []⟩
      ⟨200, "Application/PDF", "<html>nope"⟩ (by decide) rfl (by decide) (by decide)).2⟩

set_option maxRecDepth 40000 in
/-- C3: on the cyclic interstitial network (`urlA`'s page redirects to
`urlB` and vice versa), `_download_single_pdf` terminates: it follows the
chain with the depth counter incremented by 1 at each step (the four logged
fetches), refuses to recurse once the depth counter exceeds the limit 3,
and falls through to failure instead of looping, writing nothing and
leaving the negative cache unchanged. -/
theorem cyclic_chain_terminates :
    download_single_pdf cycEnv urlA "/tmp/f.pdf" 0 ⟨[], [], []⟩
      = (false, ⟨[], [], [urlA, urlB, urlA, urlB]⟩) := by decide

/-- C4: a call to `_download_single_pdf` on a URL already in the negative
cache `failed_urls` returns failure immediately with the world unchanged —
in particular the fetch log does not grow, so no network request is
issued. -/
theorem negative_cache_skip (env : Env) (url filepath : String) (st : World)
    (h : url ∈ st.failed) :
    download_single_pdf env url filepath 0 st = (false, st) := by
  unfold download_single_pdf download_single_go
  norm_num
  intro h'
  exact absurd h h'

/-- C4 (witness): `negative_cache_skip` at a concrete cached URL. -/
theorem negative_cache_skip_witness :
    cachedUrl ∈ (World.mk [] [cachedUrl] []).failed ∧
    download_single_pdf failEnv cachedUrl "/d/f.pdf" 0 ⟨[], [cachedUrl], []⟩
      = (false, ⟨[], [cachedUrl], []⟩) :=
  ⟨by decide,
    negative_cache_skip failEnv cachedUrl "/d/f.pdf" ⟨[], [cachedUrl], []⟩ (by decide)⟩

/-- C5: when the sanitized destination file already exists,
`download_article_pdf` returns that destination path with the world
unchanged (no network request); hence a second call on the same target
returns the identical storage path, and after both calls the fetch log is
what it was before the first. -/
theorem existing_file_idempotent (env : Env) (article_title article_url : String)
    (download_path : Option String) (st : World)
    (h : article_filepath env article_title download_path ∈ st.fs) :
    download_article_pdf env article_title article_url download_path st
      = (some (article_filepath env article_title download_path), st) ∧
    download_article_pdf env article_title article_url download_path
        (download_article_pdf env article_title article_url download_path st).2
      = (some (article_filepath env article_title download_path), st) ∧
    (download_article_pdf env article_title article_url download_path
        (download_article_pdf env article_title article_url download_path st).2).2.fetches
      = st.fetches := by
  have h1 : download_article_pdf env article_title article_url download_path st
      = (some (article_filepath env article_title download_path), st) := by
    unfold download_article_pdf
    rw [if_pos h]
  refine ⟨h1, ?_, ?_⟩ <;> rw [h1, h1]

/-- C5 (witness): `existing_file_idempotent` at a concrete target whose
destination file pre-exists. -/
theorem existing_file_idempotent_witness :
    article_filepath failEnv "t" (some "/dl") ∈ (World.mk ["/dl/t.pdf"] [] []).fs ∧
    (download_article_pdf failEnv "t" "http://u.example/a" (some "/dl") ⟨["/dl/t.pdf"], [], []⟩
        = (some (article_filepath failEnv "t" (some "/dl")), ⟨["/dl/t.pdf"], [], []⟩) ∧
      download_article_pdf failEnv "t" "http://u.example/a" (some "/dl")
          (download_article_pdf failEnv "t" "http://u.example/a" (some "/dl")
            ⟨["/dl/t.pdf"], [], []⟩).2
        = (some (article_filepath failEnv "t" (some "/dl")), ⟨["/dl/t.pdf"], [], []⟩) ∧
      (download_article_pdf failEnv "t" "http://u.example/a" (some "/dl")
          (download_article_pdf failEnv "t" "http://u.example/a" (some "/dl")
            ⟨["/dl/t.pdf"], [], []⟩).2).2.fetches = ([] : List String)) :=
  ⟨by decide,
    existing_file_idempotent failEnv "t" "http://u.example/a" (some "/dl")
      ⟨["/dl/t.pdf"], [], []⟩ (by decide)⟩

/-- C7 (counterexample): for a landing URL ending in `.pdf`,
`_extract_pdf_urls` does not return it as the sole candidate — the generic
suffix variants are appended after it. -/
theorem extract_not_sole_cex :
    extract_pdf_urls "http://x/a.pdf" ≠ ["http://x/a.pdf"] := by decide

/-- C7 (amended): for every non-ETH landing URL that ends in `.pdf`
(hence passes `_is_valid_pdf_url`) and has no trailing slash, the landing
URL is the first — highest-priority — candidate `_extract_pdf_urls`
returns, followed by exactly the six generic suffix variants; it is not the
sole candidate. -/
theorem extract_pdf_url_first (url : String)
    (_hpdf : pyEndsWith (pyLower url) ".pdf" = true)
    (h2 : pyContainsStr url "research-collection.ethz.ch" = false)
    (h3 : pyRstripSlash url = url)
    (h4 : is_valid_pdf_url url = true) :
    extract_pdf_urls url = [url, url ++ "/pdf", url ++ ".pdf", url ++ "/download",
      url ++ "/attachment", url ++ "?format=pdf", url ++ "&format=pdf"] := by
  unfold extract_pdf_urls
  rw [h2]
  dsimp only []
  rw [h3, if_pos h4]
  have hne : ∀ suf : String, suf.length ≠ 0 →
      (if url ++ suf ≠ url then some (url ++ suf) else none) = some (url ++ suf) := by
    intro suf hsuf
    rw [if_pos (append_ne_self url suf hsuf)]
  simp only [pdf_suffixes, List.filterMap_cons, List.filterMap_nil]
  rw [hne "/pdf" (by decide), hne ".pdf" (by decide), hne "/download" (by decide),
    hne "/attachment" (by decide), hne "?format=pdf" (by decide), hne "&format=pdf" (by decide)]
  rfl

/-- C7 (witness): `extract_pdf_url_first` at a concrete `.pdf` URL. -/
theorem extract_pdf_url_first_witness :
    pyEndsWith (pyLower "http://x/a.pdf") ".pdf" = true ∧
    extract_pdf_urls "http://x/a.pdf"
      = ["http://x/a.pdf", "http://x/a.pdf" ++ "/pdf", "http://x/a.pdf" ++ ".pdf",
        "http://x/a.pdf" ++ "/download", "http://x/a.pdf" ++ "/attachment",
        "http://x/a.pdf" ++ "?format=pdf", "http://x/a.pdf" ++ "&format=pdf"] :=
  ⟨by decide,
    extract_pdf_url_first "http://x/a.pdf" (by decide) (by decide) (by decide) (by decide)⟩

set_option maxRecDepth 100000 in
/-- C8 (counterexample): on a 200-character title, `_sanitize_filename`
returns a 204-character name — the claimed 200-character bound fails
because truncation happens before the `.pdf` extension is appended. -/
theorem sanitize_length_cex :
    200 < (sanitize_filename (String.mk (List.replicate 200 'a'))).length := by decide

/-- C8 (amended): `_sanitize_filename` is total and deterministic, returns
a name of at most 204 characters (200 from truncation plus the 4-character
extension appended afterwards) that ends in `.pdf` up to case, with every
occurrence of the characters `< > : " / \ | ? *` replaced by `_` (no such
character survives in the output). -/
theorem sanitize_filename_spec (s : String) :
    (sanitize_filename s).length ≤ 204 ∧
    pyEndsWith (pyLower (sanitize_filename s)) ".pdf" = true ∧
    ∀ c ∈ (sanitize_filename s).toList, c ∉ illegal_chars := by
  unfold sanitize_filename
  dsimp only []
  set f1 := String.mk (s.toList.map (fun c => if c ∈ illegal_chars then '_' else c)) with hf1
  set f2 := if f1.length > 200 then String.mk (f1.toList.take 200) else f1 with hf2
  have hlen2 : f2.length ≤ 200 := by
    rw [hf2]; split
    · next h =>
      have : (String.mk (f1.toList.take 200)).length = (f1.toList.take 200).length := rfl
      rw [this, List.length_take]
      omega
    · next h => omega
  have hchars2 : ∀ c ∈ f2.toList, c ∉ illegal_chars := by
    intro c hc
    have hc1 : c ∈ f1.toList := by
      rw [hf2] at hc
      split at hc
      · exact List.take_subset _ _ hc
      · exact hc
    rw [hf1] at hc1
    have hc2 : c ∈ s.toList.map (fun c => if c ∈ illegal_chars then '_' else c) := hc1
    rcases List.mem_map.mp hc2 with ⟨a, _, rfl⟩
    by_cases ha : a ∈ illegal_chars
    · rw [if_pos ha]; decide
    · rw [if_neg ha]; exact ha
  have happend : (f2 ++ ".pdf").toList = f2.toList ++ ".pdf".toList := by
    simp [String.toList]
  split
  · next h => exact ⟨by omega, h, hchars2⟩
  · next h =>
    refine ⟨?_, ?_, ?_⟩
    · rw [String.length_append]
      have : (".pdf" : String).length = 4 := rfl
      omega
    · unfold pyEndsWith pyLower
      have h1 : (String.mk ((f2 ++ ".pdf").toList.map pyToLowerChar)).toList
          = (f2 ++ ".pdf").toList.map pyToLowerChar := rfl
      rw [h1, happend, List.map_append]
      have h2 : (".pdf" : String).toList.map pyToLowerChar = ['.', 'p', 'd', 'f'] := by decide
      rw [h2, List.reverse_append]
      have h3 : (".pdf" : String).toList.reverse = ['f', 'd', 'p', '.'] := rfl
      rw [h3]
      have h4 : ['.', 'p', 'd', 'f'].reverse = ['f', 'd', 'p', '.'] := rfl
      rw [h4]
      exact isPrefixL_append_self _ _
    · intro c hc
      rw [happend] at hc
      rcases List.mem_append.mp hc with h1 | h1
      · exact hchars2 c h1
      · have : c ∈ ['.', 'p', 'd', 'f'] := h1
        fin_cases this <;> decide

/-- C9 (counterexample): on an ETH bitstream URL ending in `/download`,
`_handle_auto_download_page` mutates the downloader state — line 124 adds
the page URL to the negative cache `failed_urls`, so the cache is not the
same set before and after the call. -/
theorem resolver_mutates_cache_cex :
    (handle_auto_download_page failEnv ethDownloadUrl "" ⟨[], [], []⟩).2.failed
      = [ethDownloadUrl] := by decide

/-- C9 (amended): `_handle_auto_download_page` performs pure text analysis
and issues no fetch — the fetch log and the filesystem are untouched on
every input — and it leaves `failed_urls` unchanged except in the
ETH-specific branch: an ETH bitstream URL ending in `/download` (whose
`?sequence=`-stripped variant is absent or already cached) is appended to
the negative cache. -/
theorem resolver_frame (env : Env) (url content : String) (st : World) :
    (handle_auto_download_page env url content st).2.fetches = st.fetches ∧
    (handle_auto_download_page env url content st).2.fs = st.fs ∧
    (handle_auto_download_page env url content st).2.failed =
      (if ethCacheAdd url st then st.failed ++ [url] else st.failed) := by
  unfold handle_auto_download_page
  dsimp only []
  split
  · next heth =>
    split
    · next hseq =>
      have hc : ethCacheAdd url st = false := by
        unfold ethCacheAdd
        rw [hseq]
        simp
      rw [hc, if_neg Bool.false_ne_true]
      exact ⟨rfl, rfl, rfl⟩
    · next hseq =>
      have hA : (pyContainsStr url "?sequence="
          && decide ((pySplit url "?sequence=").headD "" ∉ st.failed)) = false := by
        simpa using hseq
      split
      · next hdl =>
        have hc : ethCacheAdd url st = true := by
          unfold ethCacheAdd
          rw [heth, hA, hdl]
          rfl
        rw [hc, if_pos rfl]
        exact ⟨rfl, rfl, rfl⟩
      · next hdl =>
        have hB : pyEndsWith url "/download" = false := by simpa using hdl
        have hc : ethCacheAdd url st = false := by
          unfold ethCacheAdd
          rw [hB]
          simp
        rw [hc, if_neg Bool.false_ne_true]
        split <;> exact ⟨rfl, rfl, rfl⟩
  · next heth =>
    have h12 : (pyContainsStr url "research-collection.ethz.ch"
        && pyContainsStr url "bitstream/handle") = false := by
      simpa using heth
    have hc : ethCacheAdd url st = false := by
      unfold ethCacheAdd
      rw [h12]
      simp
    rw [hc, if_neg Bool.false_ne_true]
    split
    · exact ⟨rfl, rfl, rfl⟩
    · split
      · exact ⟨rfl, rfl, rfl⟩
      · split
        · exact ⟨rfl, rfl, rfl⟩
        · split <;> exact ⟨rfl, rfl, rfl⟩

/-- C10 (counterexample): a meta refresh to the relative target `c.PDF` on
the page `http://Host.example/Dir/page.html` makes the resolver return
`http://Host.example/Dir/c.pdf` via the meta-refresh rule — the target is
lowercased, but the join against the case-preserved page URL leaves the
uppercase `H` in the returned URL. -/
theorem meta_uppercase_cex :
    (handle_auto_download_page env10 "http://Host.example/Dir/page.html" "body10"
        ⟨[], [], []⟩).1 = some "http://Host.example/Dir/c.pdf" ∧
    'H' ∈ "http://Host.example/Dir/c.pdf".toList ∧ pyIsUpper 'H' = true := by decide

/-- C10 (amended): whenever the meta-refresh rule fires, the redirect
target is extracted from the lowercased `content` attribute, so it contains
no uppercase ASCII letter; when that target is absolute (starts with
`http`) the resolver returns it unchanged — and hence returns no uppercase
letter — while a relative target is joined against a base derived from the
case-preserved page URL and may reintroduce uppercase from it. -/
theorem meta_redirect_lowercased (env : Env) (url content : String) (st : World)
    (he attr : String)
    (hEth : (pyContainsStr url "research-collection.ethz.ch"
        && pyContainsStr url "bitstream/handle") = false)
    (hmetas : (env.parse content).metas = [(some he, some attr)])
    (hhe : pyContainsStr (pyLower he) "refresh" = true)
    (hurl : pyContainsStr (pyLower attr) "url=" = true)
    (habs : pyStartsWith (metaTarget attr) "http" = true) :
    handle_auto_download_page env url content st = (some (metaTarget attr), st) ∧
    ∀ c ∈ (metaTarget attr).toList, pyIsUpper c = false := by
  refine ⟨?_, metaTarget_no_upper attr⟩
  unfold handle_auto_download_page
  dsimp only []
  rw [hEth]
  rw [if_neg Bool.false_ne_true]
  rw [hmetas]
  have hfind : List.find? (fun (m : Option String × Option String) =>
      match m.1 with
      | some he => pyContainsStr (pyLower he) "refresh"
      | none => false) [(some he, some attr)] = some (some he, some attr) := by
    rw [List.find?_cons]
    simp [hhe]
  rw [hfind]
  dsimp only [Option.getD]
  rw [if_pos hurl]
  unfold resolveRel
  rw [if_pos habs]

/-- C10 (witness): `meta_redirect_lowercased` on a concrete upper-cased
absolute meta-refresh target. -/
theorem meta_redirect_lowercased_witness :
    pyStartsWith (metaTarget "3;URL=HTTP://X.COM/F.PDF") "http" = true ∧
    (handle_auto_download_page envW "http://plain.example/a/b" "body" ⟨[], [], []⟩
        = (some (metaTarget "3;URL=HTTP://X.COM/F.PDF"), ⟨[], [], []⟩) ∧
      ∀ c ∈ (metaTarget "3;URL=HTTP://X.COM/F.PDF").toList, pyIsUpper c = false) :=
  ⟨by decide,
    meta_redirect_lowercased envW "http://plain.example/a/b" "body" ⟨[], [], []⟩
      "Refresh" "3;URL=HTTP://X.COM/F.PDF" (by decide) rfl (by decide) (by decide) (by decide)⟩

end ScholarDock
